import Mathlib

/-!
Shallow embedding of the chat data store and message-state engine of
`front-end-test-mobile-chat-app`:
  * `src/database/db.ts` — schema creation and additive column migration
    (`initializeDatabase`);
  * `src/unnamed/part_001` (`useChatsDb`) — chat loading, `createChat`,
    `sendMessage`, `updateMessageStatus`, and the in-memory (`setUserChats`)
    state reconciliation.

SQLite tables are embedded as lists of typed rows; the `TEXT PRIMARY KEY`
columns become an id-uniqueness check on insert.  The `read_by` TEXT column
stores a JSON list of user ids; since every access in the source decodes it
with `JSON.parse` and re-encodes with `JSON.stringify` (a round trip that is
the identity on lists of strings), it is embedded at the decoded level as
`List String`.  `Date.now()` is passed in as an explicit `now : Nat`
parameter.  React state updates (`setUserChats`) are embedded as pure
functions on the in-memory `List Chat`.
-/

namespace ChatApp

/-- The `status` column of a message: `'sent' | 'delivered' | 'read'`. -/
inductive MsgStatus
  | sent
  | delivered
  | read
deriving DecidableEq, Repr

/-- Numeric rank of the lifecycle order sent < delivered < read (spec §3). -/
def MsgStatus.rank : MsgStatus → Nat
  | .sent => 0
  | .delivered => 1
  | .read => 2

/-- The `status` parameter type of `updateMessageStatus` in the source is the
TypeScript union `'delivered' | 'read'` (it excludes `'sent'`). -/
inductive TargetStatus
  | delivered
  | read
deriving DecidableEq, Repr

def TargetStatus.toStatus : TargetStatus → MsgStatus
  | .delivered => .delivered
  | .read => .read

/-- A row of the `messages` table (schema of `db.ts`; `read_by` decoded). -/
structure MessageRow where
  id : String
  chatId : String
  senderId : String
  text : String
  timestamp : Nat
  status : MsgStatus
  readBy : List String
  isDeleted : Bool
deriving DecidableEq, Repr

/-- A row of the `chats` table: id only. -/
structure ChatRow where
  id : String
deriving DecidableEq, Repr

/-- A row of the `chat_participants` table. -/
structure ParticipantRow where
  id : String
  chatId : String
  userId : String
deriving DecidableEq, Repr

/-- The persisted store: the three tables the chat core reads and writes. -/
structure Store where
  chats : List ChatRow
  chatParticipants : List ParticipantRow
  messages : List MessageRow
deriving DecidableEq, Repr

/-- The in-memory `Message` interface of `useChatsDb`. -/
structure Message where
  id : String
  senderId : String
  text : String
  timestamp : Nat
  status : MsgStatus
  readBy : List String
deriving DecidableEq, Repr

/-- The in-memory `Chat` interface of `useChatsDb` (`lastMessage` optional). -/
structure Chat where
  id : String
  participants : List String
  messages : List Message
  lastMessage : Option Message
deriving DecidableEq, Repr

/-- `db.insert(chats).values(...)`: fails (SQLite PRIMARY KEY violation) when
 the id already exists. -/
def insertChat (s : Store) (c : ChatRow) : Except Unit Store :=
  if s.chats.any (fun r => r.id == c.id) then .error ()
  else .ok { s with chats := s.chats ++ [c] }

/-- `db.insert(chatParticipants).values(...)` with the PRIMARY KEY check. -/
def insertParticipant (s : Store) (p : ParticipantRow) : Except Unit Store :=
  if s.chatParticipants.any (fun r => r.id == p.id) then .error ()
  else .ok { s with chatParticipants := s.chatParticipants ++ [p] }

/-- `db.insert(messages).values(...)` with the PRIMARY KEY check. -/
def insertMessage (s : Store) (m : MessageRow) : Except Unit Store :=
  if s.messages.any (fun r => r.id == m.id) then .error ()
  else .ok { s with messages := s.messages ++ [m] }

/-- Timestamp order used by `ORDER BY messages.timestamp` (ascending). -/
def tsLe (a b : MessageRow) : Prop := a.timestamp ≤ b.timestamp

instance : DecidableRel tsLe := fun a b => Nat.decLe a.timestamp b.timestamp

instance : IsTotal MessageRow tsLe := ⟨fun a b => Nat.le_total a.timestamp b.timestamp⟩

instance : IsTrans MessageRow tsLe := ⟨fun _ _ _ h h2 => Nat.le_trans h h2⟩

/-- The row-to-`Message` mapping of the loader (lines 77–84 of the hook);
`status` is NOT NULL with default `'sent'`, so the `|| 'sent'` fallback is
the identity here, and `readBy` arrives already decoded. -/
def rowToMessage (m : MessageRow) : Message :=
  { id := m.id, senderId := m.senderId, text := m.text,
    timestamp := m.timestamp, status := m.status, readBy := m.readBy }

/-- `SELECT * FROM messages WHERE chat_id = ? ORDER BY timestamp` followed by
the row mapping. -/
def chatMessagesOf (s : Store) (chatId : String) : List Message :=
  (((s.messages.filter (fun m => m.chatId == chatId)).insertionSort tsLe).map rowToMessage)

/-- The per-chat body of the `loadChats` loop: load the chat row (skip the
chat when absent — the `continue` on line 60), participants, ordered
messages, and the last message (`chatMessages[chatMessages.length - 1]`). -/
def assembleChat (s : Store) (chatId : String) : Option Chat :=
  let chatData := s.chats.filter (fun c => c.id == chatId)
  if chatData.isEmpty then none
  else
    let participantIds := (s.chatParticipants.filter (fun p => p.chatId == chatId)).map (fun p => p.userId)
    let msgs := chatMessagesOf s chatId
    some { id := chatId, participants := participantIds, messages := msgs,
           lastMessage := msgs.getLast? }

/-- The `loadChats` effect of `useChatsDb`: chat ids from the user's
participant rows, then one aggregate per id, skipping dangling ids. -/
def loadChatsForUser (s : Store) (currentUserId : Option String) : List Chat :=
  match currentUserId with
  | none => []
  | some uid =>
    let chatIds := (s.chatParticipants.filter (fun p => p.userId == uid)).map (fun p => p.chatId)
    chatIds.filterMap (assembleChat s)

/-- The synthetic participant id `cp-${chatId}-${userId}`. -/
def participantRowId (chatId userId : String) : String :=
  "cp-" ++ chatId ++ "-" ++ userId

/-- The participant rows `createChat` generates for `chatId`, one per id. -/
def participantRowsFor (chatId : String) (ids : List String) : List ParticipantRow :=
  ids.map (fun u => { id := participantRowId chatId u, chatId := chatId, userId := u })

/-- The participant-insert loop of `createChat` (lines 124–130).  On an
insert error the enclosing `catch` returns, keeping every row already
inserted (no rollback). -/
def insertParticipantsLoop (chatId : String) : Store → List String → Bool × Store
  | s, [] => (true, s)
  | s, userId :: rest =>
    match insertParticipant s { id := participantRowId chatId userId, chatId := chatId, userId := userId } with
    | .error _ => (false, s)
    | .ok s1 => insertParticipantsLoop chatId s1 rest

/-- `createChat(participantIds)` of `useChatsDb`.  Returns `null` when there
is no current user or the current user is not among the participants;
otherwise inserts the chat row (id `chat${Date.now()}`) and one participant
row per id, appends the new aggregate to the in-memory chat list, and
returns it.  Any insert error is caught and `null` returned, with the rows
inserted so far left in place. -/
def createChat (s : Store) (ui : List Chat) (now : Nat) (participantIds : List String) (currentUserId : Option String) : Option Chat × Store × List Chat :=
  match currentUserId with
  | none => (none, s, ui)
  | some uid =>
    if participantIds.contains uid then
      let chatId := "chat" ++ toString now
      match insertChat s { id := chatId } with
      | .error _ => (none, s, ui)
      | .ok s1 =>
        match insertParticipantsLoop chatId s1 participantIds with
        | (true, s2) =>
          let newChat : Chat := { id := chatId, participants := participantIds,
                                  messages := [], lastMessage := none }
          (some newChat, s2, ui ++ [newChat])
        | (false, s2) => (none, s2, ui)
    else (none, s, ui)

/-- The `!text.trim()` guard of `sendMessage`: true exactly when the text
trims to the empty string, i.e. every character is whitespace. -/
def isBlank (text : String) : Bool := text.data.all Char.isWhitespace

/-- `sendMessage(chatId, text, senderId)` of `useChatsDb`: rejects blank
text, inserts the row with status `'sent'` and `readBy = [senderId]`, and
appends the message to the chat's in-memory list, updating `lastMessage`. -/
def sendMessage (s : Store) (ui : List Chat) (chatId text senderId : String) (now : Nat) : Bool × Store × List Chat :=
  if isBlank text then (false, s, ui)
  else
    let messageId := "msg" ++ toString now
    let row : MessageRow :=
      { id := messageId, chatId := chatId, senderId := senderId, text := text,
        timestamp := now, status := .sent, readBy := [senderId], isDeleted := false }
    match insertMessage s row with
    | .error _ => (false, s, ui)
    | .ok s1 =>
      let newMessage := rowToMessage row
      (true, s1, ui.map (fun chat =>
        if chat.id == chatId then
          { chat with messages := chat.messages ++ [newMessage],
                      lastMessage := some newMessage }
        else chat))

/-- One step of scanning for the maximum-timestamp row (the row
`ORDER BY timestamp DESC LIMIT 1` returns; first such row on ties). -/
def lastMsgStep (acc : Option MessageRow) (m : MessageRow) : Option MessageRow :=
  match acc with
  | none => some m
  | some b => if b.timestamp < m.timestamp then some m else some b

/-- `SELECT ... WHERE chat_id = ? ORDER BY timestamp DESC LIMIT 1` (lines
202–210): the chat row with the maximum timestamp (first such row on ties). -/
def lastMessageOf (s : Store) (chatId : String) : Option MessageRow :=
  (s.messages.filter (fun m => m.chatId == chatId)).foldl lastMsgStep none

/-- The `WHERE (chat_id = ? AND id = ?)` condition shared by the
`currentMessage` select and the update of `updateMessageStatus`. -/
def msgKeyMatches (chatId messageId : String) (m : MessageRow) : Bool :=
  m.chatId == chatId && m.id == messageId

/-- The `currentMessage` load of `updateMessageStatus` (lines 218–224). -/
def findMessage (s : Store) (chatId messageId : String) : Option MessageRow :=
  (s.messages.filter (msgKeyMatches chatId messageId)).head?

/-- The `updateData` record built by `updateMessageStatus`: `status` is
always present; `readBy` is present only for a `read` target with an acting
user not already in the decoded list. -/
structure UpdatePayload where
  status : MsgStatus
  readByUpdate : Option (List String)
deriving DecidableEq, Repr

/-- The read phase of `updateMessageStatus` (lines 202–238): the
last-message gate, the `currentMessage` load, and the computation of
`updateData`, with no write yet.  `none` is the early `return false`. -/
def readPhase (s : Store) (chatId messageId : String) (target : TargetStatus) (userId : Option String) : Option UpdatePayload :=
  if (lastMessageOf s chatId).map (fun m => m.id) = some messageId then
    let current := findMessage s chatId messageId
    let existingReadBy := (current.map (fun m => m.readBy)).getD []
    let readByUpdate :=
      match target, userId with
      | .read, some u =>
        if existingReadBy.contains u then none else some (existingReadBy ++ [u])
      | _, _ => none
    some { status := target.toStatus, readByUpdate := readByUpdate }
  else none

/-- Applying `updateData` to a row: `status` overwritten unconditionally,
`readBy` overwritten only when the payload carries it. -/
def applyPayload (pl : UpdatePayload) (m : MessageRow) : MessageRow :=
  { m with status := pl.status,
           readBy := match pl.readByUpdate with
                     | some rb => rb
                     | none => m.readBy }

/-- The write phase: `db.update(messages).set(updateData).where(chat_id,
id)` (lines 241–246). -/
def writePhase (s : Store) (chatId messageId : String) (pl : UpdatePayload) : Store :=
  { s with messages := s.messages.map (fun m =>
      if msgKeyMatches chatId messageId m then applyPayload pl m else m) }

/-- The `setUserChats` reconciliation of `updateMessageStatus` (lines
249–274): in the matching chat, the matching message gets the new status and
— for a `read` target with an acting user — `userId` appended to `readBy`
UNCONDITIONALLY (`[...(msg.readBy || []), userId]`, no membership check). -/
def localStatusUpdate (ui : List Chat) (chatId messageId : String) (target : TargetStatus) (userId : Option String) : List Chat :=
  ui.map (fun chat =>
    if chat.id == chatId then
      let updatedMessages := chat.messages.map (fun msg =>
        if msg.id == messageId then
          { msg with status := target.toStatus,
                     readBy := match target, userId with
                               | .read, some u => msg.readBy ++ [u]
                               | _, _ => msg.readBy }
        else msg)
      { chat with messages := updatedMessages,
                  lastMessage :=
                    if (chat.lastMessage.map (fun m => m.id)) = some messageId then
                      updatedMessages.find? (fun m => m.id == messageId)
                    else chat.lastMessage }
    else chat)

/-- `updateMessageStatus(chatId, messageId, status, userId?)` of
`useChatsDb`, run without interleaving: the read phase immediately followed
by the write phase and the in-memory reconciliation. -/
def updateMessageStatus (s : Store) (ui : List Chat) (chatId messageId : String) (target : TargetStatus) (userId : Option String) : Bool × Store × List Chat :=
  match readPhase s chatId messageId target userId with
  | none => (false, s, ui)
  | some pl =>
    (true, writePhase s chatId messageId pl, localStatusUpdate ui chatId messageId target userId)

/-- Modelled from the spec: `softDelete(chatId, messageId)` "sets
`isDeleted`, irreversible in scope" (§4.4).  The operation itself is absent
from the source (only the `is_deleted` column exists in the schema), so its
effect on the store follows the spec's words. -/
def softDelete (s : Store) (chatId messageId : String) : Store :=
  { s with messages := s.messages.map (fun m =>
      if msgKeyMatches chatId messageId m then { m with isDeleted := true } else m) }

/-! ### Schema manager (`src/database/db.ts`)

The live SQLite schema is embedded as a list of tables, each a name with its
ordered column-name list (the claims concern only table and column
presence). -/

structure TableSchema where
  name : String
  columns : List String
deriving DecidableEq, Repr

structure DbSchema where
  tables : List TableSchema
deriving DecidableEq, Repr

def tableExists (db : DbSchema) (n : String) : Bool :=
  db.tables.any (fun t => t.name == n)

/-- `CREATE TABLE IF NOT EXISTS n (...)`. -/
def createTableIfNotExists (db : DbSchema) (n : String) (cols : List String) : DbSchema :=
  if tableExists db n then db
  else { tables := db.tables ++ [{ name := n, columns := cols }] }

/-- The column list of the table named `n` in a table list (empty when the
table is absent). -/
def infoOf (ts : List TableSchema) (n : String) : List String :=
  match ts.find? (fun t => t.name == n) with
  | some t => t.columns
  | none => []

/-- `PRAGMA table_info(n)` reduced to the column names. -/
def tableInfo (db : DbSchema) (n : String) : List String := infoOf db.tables n

/-- The per-table effect of `ALTER TABLE n ADD COLUMN col`. -/
def colAdder (n col : String) (t : TableSchema) : TableSchema :=
  if t.name == n then { t with columns := t.columns ++ [col] } else t

/-- `ALTER TABLE n ADD COLUMN col` (appends to the named table). -/
def addColumn (db : DbSchema) (n col : String) : DbSchema :=
  { tables := db.tables.map (colAdder n col) }

/-- One of the seven guarded `ALTER TABLE messages ADD COLUMN` steps of
`initializeDatabase`: the presence check runs against the single
`messagesColumns` snapshot taken before any of the adds. -/
def addColumnIfMissing (db : DbSchema) (snapshot : List String) (col : String) : DbSchema :=
  if snapshot.contains col then db else addColumn db "messages" col

/-- The seven presence-checked columns, in source order. -/
def messagesMigrationColumns : List String :=
  ["status", "read_by", "delivered_to", "reaction", "is_deleted", "edited_at", "media"]

/-- The four `CREATE TABLE IF NOT EXISTS` statements of
`initializeDatabase`, in source order. -/
def createCoreTables (db : DbSchema) : DbSchema :=
  createTableIfNotExists
    (createTableIfNotExists
      (createTableIfNotExists
        (createTableIfNotExists db "users" ["id", "name", "avatar", "status"])
        "chats" ["id"])
      "chat_participants" ["id", "chat_id", "user_id"])
    "messages" ["id", "chat_id", "sender_id", "text", "timestamp"]

/-- `initializeDatabase` of `db.ts`: the four `CREATE TABLE IF NOT EXISTS`
statements, one `PRAGMA table_info(messages)` snapshot, and the seven
guarded column adds in source order (written as a fold over
`messagesMigrationColumns`, which unfolds to exactly the seven sequential
conditionals of the source, each checked against the one snapshot). -/
def initializeDatabase (db : DbSchema) : DbSchema :=
  let db4 := createCoreTables db
  let messagesColumns := tableInfo db4 "messages"
  messagesMigrationColumns.foldl (fun d c => addColumnIfMissing d messagesColumns c) db4

/-! ### Concrete fixtures (used by counterexamples and witnesses) -/

def emptyStore : Store := { chats := [], chatParticipants := [], messages := [] }

/-- One chat `c` (member `A`) whose single message `m1` is already `read`. -/
def readMsgStore : Store :=
  { chats := [⟨"c"⟩],
    chatParticipants := [⟨"cp-c-A", "c", "A"⟩],
    messages := [⟨"m1", "c", "A", "hi", 100, .read, [], false⟩] }

/-- The same chat with `m1` still `sent` and an empty `readBy`. -/
def sentMsgStore : Store :=
  { chats := [⟨"c"⟩],
    chatParticipants := [⟨"cp-c-A", "c", "A"⟩],
    messages := [⟨"m1", "c", "A", "hi", 100, .sent, [], false⟩] }

/-- The in-memory view of `sentMsgStore` held by the hook's state. -/
def sentMsgUi : List Chat :=
  [⟨"c", ["A", "B"], [⟨"m1", "A", "hi", 100, .sent, []⟩],
    some ⟨"m1", "A", "hi", 100, .sent, []⟩⟩]

/-- Chat `C` after `sendMessage(C, "hello", A)` at t=100 and
`sendMessage(C, "world", A)` at t=200, built by the embedded operations. -/
def twoMsgStore : Store :=
  (sendMessage
    (sendMessage
      { chats := [⟨"C"⟩], chatParticipants := [⟨"cp-C-A", "C", "A"⟩], messages := [] }
      [] "C" "hello" "A" 100).2.1
    [] "C" "world" "A" 200).2.1

/-- `twoMsgStore` after `softDelete(C, msg200)`. -/
def twoMsgDeletedStore : Store := softDelete twoMsgStore "C" "msg200"

/-- The aggregate `loadChatsForUser` produces for user `A` from
`twoMsgDeletedStore`. -/
def twoMsgAggregate : Chat :=
  { id := "C", participants := ["A"],
    messages := [⟨"msg100", "A", "hello", 100, .sent, ["A"]⟩,
                 ⟨"msg200", "A", "world", 200, .sent, ["A"]⟩],
    lastMessage := some ⟨"msg200", "A", "world", 200, .sent, ["A"]⟩ }

/-- A store with a dangling participant row: user `A` has a membership row
for chat `ghost`, which has no row in the chats table. -/
def danglingStore : Store :=
  { chats := [⟨"C"⟩],
    chatParticipants := [⟨"cp-C-A", "C", "A"⟩, ⟨"cp-ghost-A", "ghost", "A"⟩],
    messages := [] }

/-- The final store of the interleaved C3 race: both calls read the original
`sentMsgStore`, the `read` call writes first, the `delivered` call writes
last (read₁, read₂, write₂, write₁). -/
def raceFinalStore : Store :=
  match readPhase sentMsgStore "c" "m1" .read (some "B"),
        readPhase sentMsgStore "c" "m1" .delivered (some "B") with
  | some plRead, some plDelivered =>
    writePhase (writePhase sentMsgStore "c" "m1" plRead) "c" "m1" plDelivered
  | _, _ => sentMsgStore

/-! ### General lemmas about the embedded operations -/

theorem msgKeyMatches_applyPayload (c mid : String) (pl : UpdatePayload) (m : MessageRow) :
    msgKeyMatches c mid (applyPayload pl m) = msgKeyMatches c mid m := rfl

theorem applyPayload_id (pl : UpdatePayload) (m : MessageRow) :
    (applyPayload pl m).id = m.id := rfl

theorem applyPayload_chatId (pl : UpdatePayload) (m : MessageRow) :
    (applyPayload pl m).chatId = m.chatId := rfl

theorem applyPayload_timestamp (pl : UpdatePayload) (m : MessageRow) :
    (applyPayload pl m).timestamp = m.timestamp := rfl

/-- Filtering a row-wise conditional update by the update's own condition
commutes it past the map. -/
theorem filter_update_map (p : MessageRow → Bool) (f : MessageRow → MessageRow)
    (hf : ∀ m, p (f m) = p m) (l : List MessageRow) :
    (l.map (fun m => if p m then f m else m)).filter p = (l.filter p).map f := by
  induction l with
  | nil => rfl
  | cons m t ih =>
    by_cases h : p m
    · simp only [List.map_cons, List.filter_cons, h, if_pos, hf m, List.map]
      rw [ih]
    · simp only [List.map_cons, List.filter_cons, h, if_neg, Bool.false_eq_true, ite_false]
      rw [ih]

theorem writePhase_messages (s : Store) (c mid : String) (pl : UpdatePayload) :
    (writePhase s c mid pl).messages =
      s.messages.map (fun m => if msgKeyMatches c mid m then applyPayload pl m else m) := rfl

theorem findMessage_writePhase (s : Store) (c mid : String) (pl : UpdatePayload) :
    findMessage (writePhase s c mid pl) c mid = (findMessage s c mid).map (applyPayload pl) := by
  unfold findMessage
  rw [writePhase_messages,
    filter_update_map (msgKeyMatches c mid) (applyPayload pl) (msgKeyMatches_applyPayload c mid pl),
    List.head?_map]

theorem lastMsgStep_map (g : MessageRow → MessageRow) (hg : ∀ m, (g m).timestamp = m.timestamp)
    (acc : Option MessageRow) (m : MessageRow) :
    lastMsgStep (acc.map g) (g m) = (lastMsgStep acc m).map g := by
  cases acc with
  | none => rfl
  | some b =>
    simp only [Option.map_some', lastMsgStep]
    rw [hg, hg]
    by_cases h : b.timestamp < m.timestamp
    · rw [if_pos h, if_pos h]
      rfl
    · rw [if_neg h, if_neg h]
      rfl

theorem foldl_lastMsgStep_map (g : MessageRow → MessageRow)
    (hg : ∀ m, (g m).timestamp = m.timestamp) :
    ∀ (l : List MessageRow) (acc : Option MessageRow),
      (l.map g).foldl lastMsgStep (acc.map g) = (l.foldl lastMsgStep acc).map g := by
  intro l
  induction l with
  | nil => intro acc; rfl
  | cons m t ih =>
    intro acc
    simp only [List.map_cons, List.foldl_cons]
    rw [lastMsgStep_map g hg, ih]

theorem foldl_lastMsgStep_mem :
    ∀ (l : List MessageRow) (acc : Option MessageRow) (r : MessageRow),
      l.foldl lastMsgStep acc = some r → acc = some r ∨ r ∈ l := by
  intro l
  induction l with
  | nil => intro acc r h; exact Or.inl h
  | cons m t ih =>
    intro acc r h
    rcases ih (lastMsgStep acc m) r h with h' | h'
    · cases acc with
      | none =>
        simp only [lastMsgStep, Option.some.injEq] at h'
        exact Or.inr (h' ▸ List.mem_cons_self m t)
      | some b =>
        simp only [lastMsgStep] at h'
        by_cases hts : b.timestamp < m.timestamp
        · rw [if_pos hts] at h'
          exact Or.inr (Option.some.inj h' ▸ List.mem_cons_self m t)
        · rw [if_neg hts] at h'
          exact Or.inl h'
    · exact Or.inr (List.mem_cons_of_mem m h')

theorem lastMessageOf_mem {s : Store} {c : String} {r : MessageRow}
    (h : lastMessageOf s c = some r) : r ∈ s.messages ∧ (r.chatId == c) = true := by
  unfold lastMessageOf at h
  rcases foldl_lastMsgStep_mem _ none r h with h' | h'
  · exact absurd h' (by simp)
  · exact List.mem_filter.mp h'

/-- The write phase of one `updateMessageStatus` call does not move the
last-message gate: the maximum-timestamp row of any chat keeps its id. -/
theorem lastMessageOf_writePhase_id (s : Store) (c mid : String) (pl : UpdatePayload)
    (c' : String) :
    (lastMessageOf (writePhase s c mid pl) c').map (fun m => m.id) =
      (lastMessageOf s c').map (fun m => m.id) := by
  set gg := fun m => if msgKeyMatches c mid m then applyPayload pl m else m with hgg
  have hts : ∀ m : MessageRow, (gg m).timestamp = m.timestamp := by
    intro m
    by_cases h : msgKeyMatches c mid m <;> simp [hgg, h, applyPayload_timestamp]
  unfold lastMessageOf
  rw [writePhase_messages]
  have hfil : (s.messages.map gg).filter (fun m => m.chatId == c') =
      (s.messages.filter (fun m => m.chatId == c')).map gg := by
    rw [List.filter_map]
    congr 1
    apply List.filter_congr
    intro m _
    by_cases h : msgKeyMatches c mid m <;> simp [hgg, h, applyPayload_chatId]
  rw [hfil]
  have hfold : ((s.messages.filter (fun m => m.chatId == c')).map gg).foldl lastMsgStep none =
      ((s.messages.filter (fun m => m.chatId == c')).foldl lastMsgStep none).map gg :=
    foldl_lastMsgStep_map gg hts (s.messages.filter (fun m => m.chatId == c')) none
  rw [hfold, Option.map_map]
  cases (s.messages.filter (fun m => m.chatId == c')).foldl lastMsgStep none with
  | none => rfl
  | some b =>
    simp only [Option.map_some', Option.some.injEq, Function.comp_apply]
    by_cases h : msgKeyMatches c mid b <;> simp [hgg, h, applyPayload_id]

/-- When the last-message gate passes, the row targeted by
`updateMessageStatus` is present: `findMessage` returns a row matching the
key. -/
theorem findMessage_isSome_of_gate {s : Store} {chatId messageId : String}
    (h : (lastMessageOf s chatId).map (fun m => m.id) = some messageId) :
    ∃ r0, findMessage s chatId messageId = some r0 ∧ msgKeyMatches chatId messageId r0 = true := by
  cases hlm : lastMessageOf s chatId with
  | none => rw [hlm] at h; exact absurd h (by simp)
  | some r =>
    rw [hlm] at h
    have hid : r.id = messageId := by simpa using h
    obtain ⟨hr1, hr2⟩ := lastMessageOf_mem hlm
    have hmem : r ∈ s.messages.filter (msgKeyMatches chatId messageId) :=
      List.mem_filter.mpr ⟨hr1, by simp [msgKeyMatches, hr2, beq_iff_eq.mpr hid]⟩
    cases hfm : (s.messages.filter (msgKeyMatches chatId messageId)).head? with
    | none =>
      rw [List.head?_eq_none_iff] at hfm
      rw [hfm] at hmem
      exact absurd hmem (List.not_mem_nil r)
    | some r0 =>
      refine ⟨r0, hfm, ?_⟩
      have : r0 ∈ s.messages.filter (msgKeyMatches chatId messageId) :=
        List.mem_of_mem_head? hfm
      exact (List.mem_filter.mp this).2

/-! ### C1 -/

/-- C1, counterexample: the claim says a call whose target status is at or
below the current status is a no-op; the code never compares statuses, so a
`delivered` call on an already-`read` message regresses it to `delivered`. -/
theorem c1_read_message_regresses_to_delivered :
    (findMessage readMsgStore "c" "m1").map (fun m => m.status) = some .read ∧
    (findMessage (updateMessageStatus readMsgStore [] "c" "m1" .delivered none).2.1 "c" "m1").map
      (fun m => m.status) = some .delivered ∧
    MsgStatus.delivered.rank < MsgStatus.read.rank := by
  decide

/-- C1, amended: `updateMessageStatus` performs no status comparison.  Any
call that passes the last-message gate succeeds and overwrites `status`
unconditionally with the target (last-writer-wins), so the final status of a
message after a sequence of calls is the target of the last gated call, and
a call whose target is at or below the current status regresses it rather
than being a no-op. -/
theorem c1_status_last_writer_wins (s : Store) (ui : List Chat) (chatId messageId : String)
    (target : TargetStatus) (userId : Option String)
    (h : (lastMessageOf s chatId).map (fun m => m.id) = some messageId) :
    (updateMessageStatus s ui chatId messageId target userId).1 = true ∧
    (findMessage (updateMessageStatus s ui chatId messageId target userId).2.1
      chatId messageId).map (fun m => m.status) = some target.toStatus := by
  obtain ⟨pl, hpl, hst⟩ :
      ∃ pl, readPhase s chatId messageId target userId = some pl ∧
        pl.status = target.toStatus := by
    unfold readPhase
    rw [if_pos h]
    exact ⟨_, rfl, rfl⟩
  obtain ⟨r0, hr0, -⟩ := findMessage_isSome_of_gate h
  have hu : updateMessageStatus s ui chatId messageId target userId =
      (true, writePhase s chatId messageId pl,
       localStatusUpdate ui chatId messageId target userId) := by
    simp [updateMessageStatus, hpl]
  rw [hu]
  refine ⟨rfl, ?_⟩
  rw [findMessage_writePhase, hr0, Option.map_some', Option.map_some']
  simp [applyPayload, hst]

/-- C1 witness: on the concrete one-message store the amended theorem
applies, with the `delivered` target written through. -/
theorem c1_status_last_writer_wins_witness :
    (updateMessageStatus sentMsgStore sentMsgUi "c" "m1" .delivered none).1 = true ∧
    (findMessage (updateMessageStatus sentMsgStore sentMsgUi "c" "m1" .delivered none).2.1
      "c" "m1").map (fun m => m.status) = some TargetStatus.delivered.toStatus :=
  c1_status_last_writer_wins sentMsgStore sentMsgUi "c" "m1" .delivered none (by decide)

/-! ### C2 -/

/-- C2, counterexample: the claim requires `readBy` to hold the acting user
exactly once in the in-memory state as well, but the `setUserChats`
reconciliation appends `userId` without a membership check, so two `read`
calls for user `B` leave the in-memory `readBy` with `B` twice. -/
theorem c2_inmemory_readBy_duplicates :
    ((updateMessageStatus
        (updateMessageStatus sentMsgStore sentMsgUi "c" "m1" .read (some "B")).2.1
        (updateMessageStatus sentMsgStore sentMsgUi "c" "m1" .read (some "B")).2.2
        "c" "m1" .read (some "B")).2.2.head?.bind
      (fun chat => chat.messages.head?)).map (fun m => m.readBy.count "B") = some 2 ∧
    (2 : Nat) ≠ 1 := by
  decide

/-- C2, amended: set-idempotence of `readBy` holds for the persisted row
only.  For an acting user `u` not yet in the stored `readBy`, one `read`
call leaves the persisted `readBy` containing `u` exactly once, and a second
identical call leaves the persisted store completely unchanged; the
in-memory state, by contrast, accumulates a duplicate (see the
counterexample). -/
theorem c2_persisted_readBy_idempotent (s : Store) (ui : List Chat)
    (chatId messageId u : String)
    (hlast : (lastMessageOf s chatId).map (fun m => m.id) = some messageId)
    (hnew : (findMessage s chatId messageId).map (fun m => m.readBy.count u) = some 0) :
    (findMessage (updateMessageStatus s ui chatId messageId .read (some u)).2.1
        chatId messageId).map (fun m => m.readBy.count u) = some 1 ∧
    (updateMessageStatus
        (updateMessageStatus s ui chatId messageId .read (some u)).2.1
        (updateMessageStatus s ui chatId messageId .read (some u)).2.2
        chatId messageId .read (some u)).2.1 =
      (updateMessageStatus s ui chatId messageId .read (some u)).2.1 := by
  cases hfm : findMessage s chatId messageId with
  | none => rw [hfm] at hnew; exact absurd hnew (by simp)
  | some r0 =>
    rw [hfm] at hnew
    have hcount : r0.readBy.count u = 0 := by simpa using hnew
    have hnotmem : u ∉ r0.readBy := List.count_eq_zero.mp hcount
    have hcontains : r0.readBy.contains u = false := by
      simp [List.contains, List.elem_iff, hnotmem]
    have hpl : readPhase s chatId messageId .read (some u) =
        some { status := .read, readByUpdate := some (r0.readBy ++ [u]) } := by
      unfold readPhase
      rw [if_pos hlast, hfm]
      simp [hcontains, TargetStatus.toStatus, hnotmem]
    have hu : updateMessageStatus s ui chatId messageId .read (some u) =
        (true, writePhase s chatId messageId ⟨.read, some (r0.readBy ++ [u])⟩,
         localStatusUpdate ui chatId messageId .read (some u)) := by
      simp [updateMessageStatus, hpl]
    rw [hu]
    have hfm1 : findMessage (writePhase s chatId messageId ⟨.read, some (r0.readBy ++ [u])⟩)
        chatId messageId = some (applyPayload ⟨.read, some (r0.readBy ++ [u])⟩ r0) := by
      rw [findMessage_writePhase, hfm, Option.map_some']
    constructor
    · rw [hfm1, Option.map_some']
      simp [applyPayload, List.count_append, hcount, List.count_singleton]
    · have hlast1 : (lastMessageOf (writePhase s chatId messageId
          ⟨.read, some (r0.readBy ++ [u])⟩) chatId).map (fun m => m.id) = some messageId := by
        rw [lastMessageOf_writePhase_id]
        exact hlast
      have hcontains1 : (applyPayload ⟨.read, some (r0.readBy ++ [u])⟩ r0).readBy.contains u
          = true := by
        simp [applyPayload, List.contains, List.elem_iff]
      have hpl1 : readPhase (writePhase s chatId messageId ⟨.read, some (r0.readBy ++ [u])⟩)
          chatId messageId .read (some u) = some { status := .read, readByUpdate := none } := by
        unfold readPhase
        rw [if_pos hlast1, hfm1]
        simp [hcontains1, TargetStatus.toStatus, applyPayload]
      have hu1 : updateMessageStatus (writePhase s chatId messageId
            ⟨.read, some (r0.readBy ++ [u])⟩)
          (localStatusUpdate ui chatId messageId .read (some u))
          chatId messageId .read (some u) =
          (true, writePhase (writePhase s chatId messageId ⟨.read, some (r0.readBy ++ [u])⟩)
            chatId messageId ⟨.read, none⟩,
           localStatusUpdate (localStatusUpdate ui chatId messageId .read (some u))
            chatId messageId .read (some u)) := by
        simp [updateMessageStatus, hpl1]
      rw [hu1]
      show writePhase (writePhase s chatId messageId ⟨.read, some (r0.readBy ++ [u])⟩)
          chatId messageId ⟨.read, none⟩ =
        writePhase s chatId messageId ⟨.read, some (r0.readBy ++ [u])⟩
      unfold writePhase
      simp only [List.map_map]
      congr 1
      apply List.map_congr_left
      intro m _
      by_cases hm : msgKeyMatches chatId messageId m
      · simp only [Function.comp_apply, hm, if_pos, msgKeyMatches_applyPayload]
        show applyPayload ⟨.read, none⟩ (applyPayload ⟨.read, some (r0.readBy ++ [u])⟩ m) =
          applyPayload ⟨.read, some (r0.readBy ++ [u])⟩ m
        rfl
      · simp only [Function.comp_apply, hm, Bool.false_eq_true, if_neg, ite_false]

/-- C2 witness: the amended theorem applied to the concrete one-message
store with acting user `B`. -/
theorem c2_persisted_readBy_idempotent_witness :
    (findMessage (updateMessageStatus sentMsgStore sentMsgUi "c" "m1" .read (some "B")).2.1
        "c" "m1").map (fun m => m.readBy.count "B") = some 1 ∧
    (updateMessageStatus
        (updateMessageStatus sentMsgStore sentMsgUi "c" "m1" .read (some "B")).2.1
        (updateMessageStatus sentMsgStore sentMsgUi "c" "m1" .read (some "B")).2.2
        "c" "m1" .read (some "B")).2.1 =
      (updateMessageStatus sentMsgStore sentMsgUi "c" "m1" .read (some "B")).2.1 :=
  c2_persisted_readBy_idempotent sentMsgStore sentMsgUi "c" "m1" "B" (by decide) (by decide)

/-! ### C3 -/

/-- C3: the source's read-modify-write is unprotected (its own
`// TODO: Fix possible carreer conditions` admits this).  With the
interleaving read₁ (delivered call), read₂ (read call), write₂, write₁ on a
`sent` last message, the delivered call's write — computed from the stale
read — lands last and overwrites the `read` status: the final persisted
status is `delivered`, not `read` as the claim requires, and no
`ConcurrentModificationError` exists to prevent it. -/
theorem c3_interleaving_loses_read_status :
    (findMessage raceFinalStore "c" "m1").map (fun m => (m.status, m.readBy)) =
      some (.delivered, ["B"]) ∧
    MsgStatus.delivered ≠ .read := by
  decide

/-! ### C5 -/

/-- C5, counterexample: `createChat([A], A)` does not fail — the source has
no minimum-participant check, so it creates a one-participant chat row and
returns the aggregate. -/
theorem c5_single_participant_chat_created :
    createChat emptyStore [] 5 ["A"] (some "A") =
      (some { id := "chat5", participants := ["A"], messages := [], lastMessage := none },
       { chats := [⟨"chat5"⟩], chatParticipants := [⟨"cp-chat5-A", "chat5", "A"⟩],
         messages := [] },
       [{ id := "chat5", participants := ["A"], messages := [], lastMessage := none }]) := by
  decide

/-- C5, amended: whenever there is no requesting user or the requesting
user's id is not in the participant list, `createChat` rejects — it returns
`null`, creating no chat or participant row and leaving the in-memory list
untouched.  (Other failures, such as an id collision on insert, also return
`null`; this theorem covers only the participant validation.)  There is no
fewer-than-2-distinct-ids check and no `InvalidParticipantsError`, so
`createChat([A], A)` succeeds (see the counterexample). -/
theorem c5_fails_only_without_requesting_user (s : Store) (ui : List Chat) (now : Nat)
    (participantIds : List String) (currentUserId : Option String)
    (h : ∀ uid, currentUserId = some uid → participantIds.contains uid = false) :
    createChat s ui now participantIds currentUserId = (none, s, ui) := by
  cases currentUserId with
  | none => rfl
  | some uid =>
    have hc : participantIds.contains uid = false := h uid rfl
    have hm : uid ∉ participantIds := by
      simpa [List.contains, List.elem_iff] using hc
    unfold createChat
    simp [hm]

/-- C5 witness: requester `A` absent from the participant list `[B]`. -/
theorem c5_fails_only_without_requesting_user_witness :
    createChat emptyStore [] 5 ["B"] (some "A") = (none, emptyStore, []) :=
  c5_fails_only_without_requesting_user emptyStore [] 5 ["B"] (some "A")
    (by decide)

/-! ### C6 -/

/-- C6, counterexample: `createChat([A, A], A)` fails (the duplicated id
makes the second participant insert hit the `cp-chat5-A` primary key), and
the failure is reported as `null` — but the chat row and the first
participant row are left behind: the creation is not atomic. -/
theorem c6_failed_createChat_leaves_rows :
    createChat emptyStore [] 5 ["A", "A"] (some "A") =
      (none,
       { chats := [⟨"chat5"⟩], chatParticipants := [⟨"cp-chat5-A", "chat5", "A"⟩],
         messages := [] },
       []) ∧
    ({ chats := [⟨"chat5"⟩], chatParticipants := [⟨"cp-chat5-A", "chat5", "A"⟩],
       messages := [] } : Store) ≠ emptyStore := by
  decide

/-- The participant-insert loop succeeds and appends exactly one row per id
when every generated participant id is fresh and they are pairwise
distinct. -/
theorem insertParticipantsLoop_ok (chatId : String) :
    ∀ (ids : List String) (s : Store),
      (∀ u ∈ ids, s.chatParticipants.any
        (fun r => r.id == participantRowId chatId u) = false) →
      (ids.map (participantRowId chatId)).Nodup →
      insertParticipantsLoop chatId s ids =
        (true, { s with chatParticipants := s.chatParticipants ++ participantRowsFor chatId ids }) := by
  intro ids
  induction ids with
  | nil =>
    intro s _ _
    simp [insertParticipantsLoop, participantRowsFor]
  | cons u rest ih =>
    intro s hfresh hnodup
    have hins : insertParticipant s ⟨participantRowId chatId u, chatId, u⟩ =
        .ok { s with chatParticipants :=
          s.chatParticipants ++ [⟨participantRowId chatId u, chatId, u⟩] } := by
      simp [insertParticipant, hfresh u (List.mem_cons_self u rest)]
    have hnodup' : participantRowId chatId u ∉ rest.map (participantRowId chatId) ∧
        (rest.map (participantRowId chatId)).Nodup := by
      rw [List.map_cons, List.nodup_cons] at hnodup
      exact hnodup
    have hfresh1 : ∀ v ∈ rest,
        ({ s with chatParticipants := s.chatParticipants ++
          [⟨participantRowId chatId u, chatId, u⟩] } : Store).chatParticipants.any
          (fun r => r.id == participantRowId chatId v) = false := by
      intro v hv
      simp only [List.any_append]
      rw [hfresh v (List.mem_cons_of_mem u hv)]
      have hne : participantRowId chatId u ≠ participantRowId chatId v := by
        intro hEq
        exact hnodup'.1 (hEq ▸ List.mem_map_of_mem (participantRowId chatId) hv)
      simp [beq_eq_false_iff_ne.mpr hne]
    have hstep := ih { s with chatParticipants :=
        s.chatParticipants ++ [⟨participantRowId chatId u, chatId, u⟩] } hfresh1 hnodup'.2
    show insertParticipantsLoop chatId s (u :: rest) = _
    unfold insertParticipantsLoop
    rw [hins]
    exact hstep.trans (by simp [participantRowsFor, List.append_assoc])

/-- C6, amended: a successful `createChat` does create the chat row and one
participant row per id (in list order), returning the new empty aggregate;
but on failure the rows inserted before the failing insert are NOT rolled
back (see the counterexample), so only the success half of the claim holds. -/
theorem c6_success_creates_all_rows (s : Store) (ui : List Chat) (now : Nat)
    (participantIds : List String) (uid : String)
    (hmem : participantIds.contains uid = true)
    (hchat : s.chats.any (fun r => r.id == "chat" ++ toString now) = false)
    (hfresh : ∀ u ∈ participantIds, s.chatParticipants.any
      (fun r => r.id == participantRowId ("chat" ++ toString now) u) = false)
    (hnodup : (participantIds.map (participantRowId ("chat" ++ toString now))).Nodup) :
    createChat s ui now participantIds (some uid) =
      (some { id := "chat" ++ toString now, participants := participantIds,
              messages := [], lastMessage := none },
       { chats := s.chats ++ [⟨"chat" ++ toString now⟩],
         chatParticipants := s.chatParticipants ++ participantRowsFor ("chat" ++ toString now) participantIds,
         messages := s.messages },
       ui ++ [{ id := "chat" ++ toString now, participants := participantIds,
                messages := [], lastMessage := none }]) := by
  have hins : insertChat s ⟨"chat" ++ toString now⟩ =
      .ok { s with chats := s.chats ++ [⟨"chat" ++ toString now⟩] } := by
    simp [insertChat, hchat]
  have hloop := insertParticipantsLoop_ok ("chat" ++ toString now) participantIds
    { s with chats := s.chats ++ [⟨"chat" ++ toString now⟩] } hfresh hnodup
  unfold createChat
  simp only [hmem, if_true, hins, hloop]

/-- C6 witness: `createChat([A, B], A)` on the empty store creates the chat
row and both participant rows. -/
theorem c6_success_creates_all_rows_witness :
    createChat emptyStore [] 5 ["A", "B"] (some "A") =
      (some { id := "chat5", participants := ["A", "B"], messages := [],
              lastMessage := none },
       { chats := [⟨"chat5"⟩],
         chatParticipants := [⟨"cp-chat5-A", "chat5", "A"⟩, ⟨"cp-chat5-B", "chat5", "B"⟩],
         messages := [] },
       [{ id := "chat5", participants := ["A", "B"], messages := [],
          lastMessage := none }]) := by
  have h := c6_success_creates_all_rows emptyStore [] 5 ["A", "B"] "A"
    (by decide) (by decide) (by decide) (by decide)
  simpa using h

/-! ### C7 -/

/-- C7: when `messageId` is not the id of the chat's maximum-timestamp
message, `updateMessageStatus` returns `false` and performs no write: the
persisted store and the in-memory chat list are returned unchanged. -/
theorem c7_nonlast_message_noop (s : Store) (ui : List Chat) (chatId messageId : String)
    (target : TargetStatus) (userId : Option String)
    (h : ¬ (lastMessageOf s chatId).map (fun m => m.id) = some messageId) :
    updateMessageStatus s ui chatId messageId target userId = (false, s, ui) := by
  unfold updateMessageStatus readPhase
  rw [if_neg h]

/-! ### Chat-assembler lemmas (C4, C9, C10) -/

/-- The message sequence each aggregate carries is sorted by timestamp. -/
theorem sorted_chatMessagesOf (s : Store) (chatId : String) :
    (chatMessagesOf s chatId).Sorted (fun a b => a.timestamp ≤ b.timestamp) := by
  unfold chatMessagesOf
  have hs : (List.insertionSort tsLe (s.messages.filter (fun m => m.chatId == chatId))).Sorted
      tsLe := List.sorted_insertionSort tsLe _
  exact List.pairwise_map.mpr hs

/-- In a timestamp-sorted message list, every element's timestamp is at most
the last element's. -/
theorem le_getLast_of_sorted :
    ∀ (l : List Message), l.Sorted (fun a b => a.timestamp ≤ b.timestamp) →
      ∀ (h : l ≠ []) (m : Message), m ∈ l → m.timestamp ≤ (l.getLast h).timestamp := by
  intro l
  induction l with
  | nil => intro _ h; exact absurd rfl h
  | cons a t ih =>
    intro hs h m hm
    cases t with
    | nil =>
      have : m = a := by simpa using hm
      subst this
      exact Nat.le_refl _
    | cons b t' =>
      have hs' := List.sorted_cons.mp hs
      have hne : (b :: t') ≠ [] := by simp
      rw [List.getLast_cons hne]
      rcases List.mem_cons.mp hm with rfl | hm'
      · exact hs'.1 _ (List.getLast_mem hne)
      · exact ih hs'.2 hne m hm'

/-- Characterization of a successfully assembled aggregate. -/
theorem assembleChat_eq_some {s : Store} {cid : String} {ch : Chat}
    (h : assembleChat s cid = some ch) :
    (∃ c ∈ s.chats, c.id = cid) ∧ ch.id = cid ∧ ch.messages = chatMessagesOf s cid ∧
      ch.lastMessage = (chatMessagesOf s cid).getLast? := by
  unfold assembleChat at h
  by_cases he : (s.chats.filter (fun c => c.id == cid)).isEmpty = true
  · rw [if_pos he] at h
    exact absurd h (by simp)
  · rw [if_neg he] at h
    obtain ⟨c, hc⟩ : ∃ c, c ∈ s.chats.filter (fun c => c.id == cid) := by
      cases hfe : s.chats.filter (fun c => c.id == cid) with
      | nil => rw [hfe] at he; exact absurd rfl he
      | cons c t => exact ⟨c, hfe ▸ List.mem_cons_self c t⟩
    have hmf := List.mem_filter.mp hc
    obtain rfl := Option.some.inj h
    exact ⟨⟨c, hmf.1, beq_iff_eq.mp hmf.2⟩, rfl, rfl, rfl⟩

/-- Every aggregate in the loader's output comes from `assembleChat`. -/
theorem mem_loadChatsForUser {s : Store} {u : Option String} {ch : Chat}
    (h : ch ∈ loadChatsForUser s u) : ∃ cid, assembleChat s cid = some ch := by
  cases u with
  | none => exact absurd h (by simp [loadChatsForUser])
  | some uid =>
    unfold loadChatsForUser at h
    obtain ⟨cid, -, hcid⟩ := List.mem_filterMap.mp h
    exact ⟨cid, hcid⟩

/-! ### C4 -/

/-- C4, counterexample: the loader never filters on `isDeleted`, so after
sending `msg100` (t=100) and `msg200` (t=200) and soft-deleting `msg200`,
the reported last message is the soft-deleted `msg200`, not `msg100` as the
claim requires. -/
theorem c4_deleted_message_still_last :
    ((loadChatsForUser twoMsgDeletedStore (some "A")).head?.bind
      (fun ch => ch.lastMessage)).map (fun m => m.id) = some "msg200" ∧
    (findMessage twoMsgDeletedStore "C" "msg200").map (fun m => m.isDeleted) = some true ∧
    "msg200" ≠ "msg100" := by
  decide

/-- C4, amended: the last message the loader computes for a chat with at
least one message is the maximum-creation-timestamp message among ALL of the
chat's messages, soft-deleted ones included (the loader performs no
`isDeleted` filtering); in the m1/m2 scenario it therefore reports the
soft-deleted m2, not m1. -/
theorem c4_last_message_is_max_timestamp (s : Store) (u : Option String) (ch : Chat)
    (h : ch ∈ loadChatsForUser s u) (hne : ch.messages ≠ []) :
    ∃ lm, ch.lastMessage = some lm ∧ lm ∈ ch.messages ∧
      ∀ m ∈ ch.messages, m.timestamp ≤ lm.timestamp := by
  obtain ⟨cid, hc⟩ := mem_loadChatsForUser h
  obtain ⟨-, -, hmsgs, hlast⟩ := assembleChat_eq_some hc
  have hne' : chatMessagesOf s cid ≠ [] := hmsgs ▸ hne
  refine ⟨(chatMessagesOf s cid).getLast hne', ?_, ?_, ?_⟩
  · rw [hlast]
    exact List.getLast?_eq_getLast _ hne'
  · rw [hmsgs]
    exact List.getLast_mem hne'
  · intro m hm
    exact le_getLast_of_sorted (chatMessagesOf s cid) (sorted_chatMessagesOf s cid) hne' m
      (hmsgs ▸ hm)

/-- C4 witness: the amended theorem applied to the concrete two-message
store (where the maximum is the soft-deleted `msg200`). -/
theorem c4_last_message_is_max_timestamp_witness :
    ∃ lm, twoMsgAggregate.lastMessage = some lm ∧ lm ∈ twoMsgAggregate.messages ∧
      ∀ m ∈ twoMsgAggregate.messages, m.timestamp ≤ lm.timestamp :=
  c4_last_message_is_max_timestamp twoMsgDeletedStore (some "A") twoMsgAggregate
    (by decide) (by decide)

/-! ### C9 -/

/-- C9: the loader never yields a partial aggregate and never fails: every
aggregate it produces has a matching row in the chats table, and a chat id
with no chat row (a dangling participant reference) assembles to `none` and
is thereby silently skipped. -/
theorem c9_dangling_participants_skipped (s : Store) (u : Option String) :
    (∀ ch ∈ loadChatsForUser s u, ∃ c ∈ s.chats, c.id = ch.id) ∧
    (∀ cid, (∀ c ∈ s.chats, c.id ≠ cid) → assembleChat s cid = none) := by
  constructor
  · intro ch h
    obtain ⟨cid, hc⟩ := mem_loadChatsForUser h
    obtain ⟨⟨c, hcm, hcid⟩, hchid, -, -⟩ := assembleChat_eq_some hc
    exact ⟨c, hcm, by rw [hcid, hchid]⟩
  · intro cid hnone
    unfold assembleChat
    have hfe : s.chats.filter (fun c => c.id == cid) = [] :=
      List.filter_eq_nil_iff.mpr (fun c hc => by
        simp [beq_eq_false_iff_ne.mpr (hnone c hc)])
    rw [hfe]
    rfl

/-- C9 witness: in `danglingStore`, the produced aggregate for chat `C` has
its chat row, and the dangling id `ghost` assembles to nothing. -/
theorem c9_dangling_participants_skipped_witness :
    (∃ c ∈ danglingStore.chats, c.id = (⟨"C", ["A"], [], none⟩ : Chat).id) ∧
    assembleChat danglingStore "ghost" = none :=
  ⟨(c9_dangling_participants_skipped danglingStore (some "A")).1
      ⟨"C", ["A"], [], none⟩ (by decide),
   (c9_dangling_participants_skipped danglingStore (some "A")).2 "ghost" (by decide)⟩

/-! ### C10 -/

/-- C10: in every aggregate the loader produces, consecutive messages have
non-decreasing creation timestamps (the `ORDER BY timestamp` ascending
ordering). -/
theorem c10_messages_sorted_ascending (s : Store) (u : Option String) (ch : Chat)
    (h : ch ∈ loadChatsForUser s u) :
    List.Chain' (fun a b => a.timestamp ≤ b.timestamp) ch.messages := by
  obtain ⟨cid, hc⟩ := mem_loadChatsForUser h
  obtain ⟨-, -, hmsgs, -⟩ := assembleChat_eq_some hc
  rw [hmsgs]
  exact (sorted_chatMessagesOf s cid).chain'

/-- C10 witness: the concrete two-message aggregate is ordered. -/
theorem c10_messages_sorted_ascending_witness :
    List.Chain' (fun a b => a.timestamp ≤ b.timestamp) twoMsgAggregate.messages :=
  c10_messages_sorted_ascending twoMsgDeletedStore (some "A") twoMsgAggregate (by decide)

/-- C7 witness: in the two-message chat `C`, `msg100` is not the
maximum-timestamp message, and the call on it leaves everything unchanged. -/
theorem c7_nonlast_message_noop_witness :
    ¬ (lastMessageOf twoMsgDeletedStore "C").map (fun m => m.id) = some "msg100" ∧
    updateMessageStatus twoMsgDeletedStore [] "C" "msg100" .delivered none =
      (false, twoMsgDeletedStore, []) :=
  ⟨by decide, c7_nonlast_message_noop twoMsgDeletedStore [] "C" "msg100" .delivered none (by decide)⟩

/-! ### Schema-manager lemmas (C8) -/

theorem tableExists_createTableIfNotExists_self (db : DbSchema) (n : String)
    (cols : List String) : tableExists (createTableIfNotExists db n cols) n = true := by
  unfold createTableIfNotExists
  by_cases h : tableExists db n = true
  · rw [if_pos h]
    exact h
  · rw [if_neg h]
    simp [tableExists, List.any_append]

theorem tableExists_createTableIfNotExists_mono {db : DbSchema} {n : String}
    (n' : String) (cols : List String) (h : tableExists db n = true) :
    tableExists (createTableIfNotExists db n' cols) n = true := by
  unfold createTableIfNotExists
  by_cases h' : tableExists db n' = true
  · rw [if_pos h']
    exact h
  · rw [if_neg h']
    simp only [tableExists, List.any_append] at h ⊢
    rw [h]
    rfl

theorem colAdder_name (n' col : String) (t : TableSchema) :
    (colAdder n' col t).name = t.name := by
  unfold colAdder
  by_cases h : (t.name == n') = true <;> simp [h]

theorem tableExists_addColumn (db : DbSchema) (n n' col : String) :
    tableExists (addColumn db n' col) n = tableExists db n := by
  unfold tableExists addColumn
  induction db.tables with
  | nil => rfl
  | cons t ts ih =>
    simp only [List.map_cons, List.any_cons]
    rw [ih]
    congr 1
    rw [colAdder_name]

theorem tableExists_addColumnIfMissing (db : DbSchema) (snap : List String)
    (n col : String) :
    tableExists (addColumnIfMissing db snap col) n = tableExists db n := by
  unfold addColumnIfMissing
  by_cases h : snap.contains col = true
  · rw [if_pos h]
  · rw [if_neg h]
    exact tableExists_addColumn db n "messages" col

theorem tableExists_foldl_addColumnIfMissing (snap : List String) (n : String) :
    ∀ (cols : List String) (db : DbSchema),
      tableExists (cols.foldl (fun d c => addColumnIfMissing d snap c) db) n =
        tableExists db n := by
  intro cols
  induction cols with
  | nil => intro db; rfl
  | cons c rest ih =>
    intro db
    rw [List.foldl_cons, ih, tableExists_addColumnIfMissing]

theorem mem_infoOf_map {n c : String} (n' col : String) :
    ∀ (ts : List TableSchema), c ∈ infoOf ts n → c ∈ infoOf (ts.map (colAdder n' col)) n := by
  intro ts
  induction ts with
  | nil => intro h; exact h
  | cons t rest ih =>
    intro h
    unfold infoOf at h ⊢
    rw [List.find?_cons] at h
    rw [List.map_cons, List.find?_cons, colAdder_name]
    by_cases hn : (t.name == n) = true
    · rw [hn] at h ⊢
      simp only at h ⊢
      unfold colAdder
      by_cases h' : (t.name == n') = true
      · simp only [h', if_pos]
        exact List.mem_append_left _ h
      · simp only [h', Bool.false_eq_true, if_neg, ite_false]
        exact h
    · rw [Bool.eq_false_iff.mpr hn] at h ⊢
      simp only at h ⊢
      exact ih h

theorem mem_infoOf_map_self {n : String} (col : String) :
    ∀ (ts : List TableSchema), ts.any (fun t => t.name == n) = true →
      col ∈ infoOf (ts.map (colAdder n col)) n := by
  intro ts
  induction ts with
  | nil => intro h; simp at h
  | cons t rest ih =>
    intro h
    unfold infoOf
    rw [List.map_cons, List.find?_cons, colAdder_name]
    by_cases hn : (t.name == n) = true
    · rw [hn]
      simp only
      unfold colAdder
      rw [if_pos hn]
      exact List.mem_append_right _ (List.mem_singleton.mpr rfl)
    · rw [Bool.eq_false_iff.mpr hn]
      simp only
      rw [List.any_cons, Bool.eq_false_iff.mpr hn] at h
      simp only [Bool.false_or] at h
      exact ih h

theorem mem_tableInfo_addColumn {db : DbSchema} {n c : String} (n' col : String)
    (h : c ∈ tableInfo db n) : c ∈ tableInfo (addColumn db n' col) n :=
  mem_infoOf_map n' col db.tables h

theorem mem_tableInfo_addColumn_self {db : DbSchema} {n : String} (col : String)
    (h : tableExists db n = true) : col ∈ tableInfo (addColumn db n col) n :=
  mem_infoOf_map_self col db.tables h

theorem mem_tableInfo_addColumnIfMissing {db : DbSchema} {n c : String}
    (snap : List String) (col : String) (h : c ∈ tableInfo db n) :
    c ∈ tableInfo (addColumnIfMissing db snap col) n := by
  unfold addColumnIfMissing
  by_cases hc : snap.contains col = true
  · rw [if_pos hc]
    exact h
  · rw [if_neg hc]
    exact mem_tableInfo_addColumn "messages" col h

theorem mem_tableInfo_foldl (snap : List String) {n c : String} :
    ∀ (cols : List String) (db : DbSchema), c ∈ tableInfo db n →
      c ∈ tableInfo (cols.foldl (fun d x => addColumnIfMissing d snap x) db) n := by
  intro cols
  induction cols with
  | nil => intro db h; exact h
  | cons x rest ih =>
    intro db h
    rw [List.foldl_cons]
    exact ih _ (mem_tableInfo_addColumnIfMissing snap x h)

/-- Every presence-checked column ends up in the messages table after the
guarded-add fold, provided the messages table exists and the snapshot only
reports columns the table really has. -/
theorem foldl_addColumnIfMissing_adds (snap : List String) :
    ∀ (cols : List String) (db : DbSchema),
      tableExists db "messages" = true →
      (∀ c ∈ cols, snap.contains c = true → c ∈ tableInfo db "messages") →
      ∀ c ∈ cols,
        c ∈ tableInfo (cols.foldl (fun d x => addColumnIfMissing d snap x) db) "messages" := by
  intro cols
  induction cols with
  | nil => intro db _ _ c hc; exact absurd hc (List.not_mem_nil c)
  | cons x rest ih =>
    intro db hex hsnap c hc
    rw [List.foldl_cons]
    have hex1 : tableExists (addColumnIfMissing db snap x) "messages" = true := by
      rw [tableExists_addColumnIfMissing]
      exact hex
    rcases List.mem_cons.mp hc with rfl | hcr
    · have hx : c ∈ tableInfo (addColumnIfMissing db snap c) "messages" := by
        unfold addColumnIfMissing
        by_cases hcs : snap.contains c = true
        · rw [if_pos hcs]
          exact hsnap c (List.mem_cons_self c rest) hcs
        · rw [if_neg hcs]
          exact mem_tableInfo_addColumn_self c hex
      exact mem_tableInfo_foldl snap rest _ hx
    · exact ih (addColumnIfMissing db snap x) hex1
        (fun d hd hds => mem_tableInfo_addColumnIfMissing snap x
          (hsnap d (List.mem_cons_of_mem x hd) hds)) c hcr

theorem foldl_addColumnIfMissing_noop (snap : List String) :
    ∀ (cols : List String) (db : DbSchema),
      (∀ c ∈ cols, snap.contains c = true) →
      cols.foldl (fun d x => addColumnIfMissing d snap x) db = db := by
  intro cols
  induction cols with
  | nil => intro db _; rfl
  | cons x rest ih =>
    intro db hall
    rw [List.foldl_cons]
    have hx : addColumnIfMissing db snap x = db := by
      unfold addColumnIfMissing
      rw [if_pos (hall x (List.mem_cons_self x rest))]
    rw [hx]
    exact ih db (fun c hc => hall c (List.mem_cons_of_mem x hc))

theorem contains_of_mem {l : List String} {a : String} (h : a ∈ l) :
    l.contains a = true := by
  simp [List.contains, List.elem_iff, h]

theorem mem_of_contains {l : List String} {a : String} (h : l.contains a = true) :
    a ∈ l := by
  simpa [List.contains, List.elem_iff] using h

theorem createTableIfNotExists_noop {db : DbSchema} {n : String} (cols : List String)
    (h : tableExists db n = true) : createTableIfNotExists db n cols = db := by
  unfold createTableIfNotExists
  rw [if_pos h]

/-! ### C8 -/

/-- C8: running the schema migration twice in a row is a no-op the second
time — from any starting schema, the second `initializeDatabase` run leaves
every table and every column exactly as the first run left them (each
presence-checked column having been added at most once, by the first run). -/
theorem c8_initializeDatabase_idempotent (db : DbSchema) :
    initializeDatabase (initializeDatabase db) = initializeDatabase db := by
  have hmsg4 : tableExists (createCoreTables db) "messages" = true :=
    tableExists_createTableIfNotExists_self _ _ _
  have husers4 : tableExists (createCoreTables db) "users" = true :=
    tableExists_createTableIfNotExists_mono _ _
      (tableExists_createTableIfNotExists_mono _ _
        (tableExists_createTableIfNotExists_mono _ _
          (tableExists_createTableIfNotExists_self db _ _)))
  have hchats4 : tableExists (createCoreTables db) "chats" = true :=
    tableExists_createTableIfNotExists_mono _ _
      (tableExists_createTableIfNotExists_mono _ _
        (tableExists_createTableIfNotExists_self _ _ _))
  have hcp4 : tableExists (createCoreTables db) "chat_participants" = true :=
    tableExists_createTableIfNotExists_mono _ _
      (tableExists_createTableIfNotExists_self _ _ _)
  have hI : initializeDatabase db =
      messagesMigrationColumns.foldl
        (fun d c => addColumnIfMissing d (tableInfo (createCoreTables db) "messages") c)
        (createCoreTables db) := rfl
  have hexI : ∀ n, tableExists (initializeDatabase db) n =
      tableExists (createCoreTables db) n := by
    intro n
    rw [hI]
    exact tableExists_foldl_addColumnIfMissing _ n _ _
  have hcols : ∀ c ∈ messagesMigrationColumns,
      c ∈ tableInfo (initializeDatabase db) "messages" := by
    rw [hI]
    exact foldl_addColumnIfMissing_adds (tableInfo (createCoreTables db) "messages")
      messagesMigrationColumns (createCoreTables db) hmsg4
      (fun c _ hcont => mem_of_contains hcont)
  have hcc : createCoreTables (initializeDatabase db) = initializeDatabase db := by
    unfold createCoreTables
    rw [createTableIfNotExists_noop _ ((hexI "users").trans husers4)]
    rw [createTableIfNotExists_noop _ ((hexI "chats").trans hchats4)]
    rw [createTableIfNotExists_noop _ ((hexI "chat_participants").trans hcp4)]
    rw [createTableIfNotExists_noop _ ((hexI "messages").trans hmsg4)]
  have houter : initializeDatabase (initializeDatabase db) =
      messagesMigrationColumns.foldl
        (fun d c => addColumnIfMissing d
          (tableInfo (createCoreTables (initializeDatabase db)) "messages") c)
        (createCoreTables (initializeDatabase db)) := rfl
  rw [houter, hcc]
  exact foldl_addColumnIfMissing_noop _ _ _
    (fun c hc => contains_of_mem (hcols c hc))

end ChatApp
